import Mathlib

/- Verification development for the TestPlanGenerator pipeline
   (src/testplan_generator.py).  Strings are modelled as lists of
   characters; the Python string primitives the code uses (`in`, `find`,
   slicing, `strip`, `split`, `startswith`, and the two regular
   expressions `Test Case (\d+)` and `\d+\.`) are modelled by the
   executable functions below.  Fields and control flow mirror the
   source line by line. -/

set_option maxRecDepth 10000

/-- Python whitespace test used by `str.strip` (ASCII range). -/
def isPySpace (c : Char) : Bool :=
  c == ' ' || c == '\t' || c == '\n' || c == '\r' || c == '\x0b' || c == '\x0c'

/-- Python `s.strip()`: drop whitespace from both ends. -/
def pyStrip (l : List Char) : List Char :=
  ((l.dropWhile isPySpace).reverse.dropWhile isPySpace).reverse

/-- Python `hay.find(needle)`: index of the first occurrence, `none` when absent
(Python returns -1 there). -/
def findSub (needle : List Char) : List Char → Option Nat
  | [] => if needle.isEmpty then some 0 else none
  | c :: t =>
    if needle.isPrefixOf (c :: t) then some 0
    else (findSub needle t).map (fun n => n + 1)

/-- Python `needle in hay`, which agrees with `hay.find(needle) != -1`. -/
def containsSub (hay needle : List Char) : Bool :=
  (findSub needle hay).isSome

/-- Python slice `l[a:b]` for non-negative indices (empty when `b ≤ a`). -/
def pySlice (l : List Char) (a b : Nat) : List Char :=
  (l.drop a).take (b - a)

/-- Python `content.split("\n")`: split on newline, keeping empty pieces. -/
def splitLines : List Char → List (List Char)
  | [] => [[]]
  | c :: t =>
    if c == '\n' then [] :: splitLines t
    else
      match splitLines t with
      | [] => [[c]]
      | x :: xs => (c :: x) :: xs

/-- Helper for `afterLast`: scan left to right, remembering the suffix that
follows the last occurrence of `needle` seen so far. -/
def afterLastAux (needle : List Char) : List Char → List Char → List Char
  | [], best => best
  | c :: t, best =>
    if needle.isPrefixOf (c :: t) then afterLastAux needle t ((c :: t).drop needle.length)
    else afterLastAux needle t best

/-- Python `l.split(sep)[-1]` for the separators used by the source
("Objective:", "Preconditions:", "Expected Results:", "Priority:",
"Status:", ":"): none of these has a nontrivial border, so the last piece
of the split is exactly the suffix after the last occurrence of the
separator (the whole string when the separator is absent). -/
def afterLast (needle l : List Char) : List Char :=
  afterLastAux needle l l

/-- Python `int` on a non-empty string of decimal digits. -/
def digitsToNat (ds : List Char) : Nat :=
  ds.foldl (fun n c => n * 10 + (c.toNat - 48)) 0

/-- The literal part of the regex `Test Case (\d+)`. -/
def testCaseLit : List Char := "Test Case ".toList

/-- Python `re.search(r"Test Case (\d+)", line)`: scan positions left to
right; at the first position where the literal is followed by at least one
digit, capture the maximal digit run.  Returns the captured digit string. -/
def findTestCaseDigits : List Char → Option (List Char)
  | [] => none
  | c :: t =>
    if testCaseLit.isPrefixOf (c :: t) then
      let ds := ((c :: t).drop testCaseLit.length).takeWhile Char.isDigit
      if ds.isEmpty then findTestCaseDigits t else some ds
    else findTestCaseDigits t

/-- Python `l.startswith(c)` for a single character. -/
def startsWithChar (c : Char) : List Char → Bool
  | [] => false
  | x :: _ => x == c

/-- Python `re.match(r"\d+\.", l)`: at least one leading digit with a dot
immediately after the maximal leading digit run. -/
def startsWithNumDot (l : List Char) : Bool :=
  let ds := l.takeWhile Char.isDigit
  !ds.isEmpty && startsWithChar '.' (l.drop ds.length)

/-- Start marker literal of `_extract_test_plan_content`. -/
def startMarker : List Char := "TEST PLAN:".toList

/-- End marker literal of `_extract_test_plan_content`. -/
def endMarker : List Char := "END OF TEST PLAN".toList

/-- Soft-miss sentinel text returned by `_extract_test_plan_content`. -/
def noPlanMsg : List Char := "No test plan could be extracted.".toList

/-- Field literal "Objective:". -/
def objectiveMarker : List Char := "Objective:".toList

/-- Field literal "Preconditions:". -/
def preconditionsMarker : List Char := "Preconditions:".toList

/-- Field literal "Expected Results:". -/
def expectedResultsMarker : List Char := "Expected Results:".toList

/-- Field literal "Priority:". -/
def priorityMarker : List Char := "Priority:".toList

/-- Field literal "Status:". -/
def statusMarker : List Char := "Status:".toList

/-- Separator ":" used for the title split. -/
def colonSep : List Char := ":".toList

/-- Placeholder "To be determined" used for plan-level metadata. -/
def tbd : List Char := "To be determined".toList

/-- Default priority "Medium". -/
def mediumS : List Char := "Medium".toList

/-- Default status "Draft". -/
def draftS : List Char := "Draft".toList

/-- One turn of the conversation transcript: the dictionary access
`msg.get("content", "")` is modelled by the `content` field. -/
structure ChatMessage where
  content : List Char
deriving DecidableEq

/-- One test case dictionary as built by `_emergency_test_plan_processing`. -/
structure TestCase where
  test_case_number : Nat
  title : List Char
  objective : List Char
  preconditions : List Char
  steps : List (List Char)
  expected_results : List Char
  priority : List Char
  status : List Char
deriving DecidableEq

/-- The structured test plan dictionary of `_emergency_test_plan_processing`
(keys in the construction order of the source). -/
structure TestPlan where
  objective : List Char
  scope : List Char
  testing_strategy : List Char
  test_environment : List Char
  schedule : List Char
  test_cases : List TestCase
  risk_assessment : List Char
deriving DecidableEq

/-- Result of the pipeline: the raw dictionary `{"test_plan": text}` of the
fast path, or the structured dictionary of the fallback parser. -/
inductive TestPlanRecord where
  | raw (text : List Char)
  | structured (plan : TestPlan)
deriving DecidableEq

/-- The reverse scan of `_extract_test_plan_content`: for each message
(already reversed), when the start marker occurs and both finds succeed,
return the trimmed slice; otherwise continue; the sentinel when the list is
exhausted. -/
def extractLoop : List ChatMessage → TestPlanRecord
  | [] => TestPlanRecord.raw noPlanMsg
  | m :: rest =>
    if containsSub m.content startMarker then
      match findSub startMarker m.content, findSub endMarker m.content with
      | some s, some e => TestPlanRecord.raw (pyStrip (pySlice m.content s e))
      | _, _ => extractLoop rest
    else extractLoop rest

/-- Model of `TestPlanGenerator._extract_test_plan_content`: iterate over
`reversed(messages)`. -/
def extractTestPlanContent (messages : List ChatMessage) : TestPlanRecord :=
  extractLoop messages.reverse

/-- The fresh test case opened by a heading line: identifier from the
matched digits, title `line.split(":")[-1].strip()` when the line has a
colon, else the synthesized `f"Test Case {digits}"`; remaining fields at
the defaults of the source dictionary literal. -/
def newTestCase (ds line : List Char) : TestCase :=
  { test_case_number := digitsToNat ds
    title := if line.contains ':' then pyStrip (afterLast colonSep line) else testCaseLit ++ ds
    objective := []
    preconditions := []
    steps := []
    expected_results := []
    priority := mediumS
    status := draftS }

/-- The mutable loop state of `_emergency_test_plan_processing`: the test
cases appended so far and the optional current test case. -/
structure ParseState where
  cases : List TestCase
  current : Option TestCase
deriving DecidableEq

/-- The field-extraction block of the loop body (the `if current_test_case:`
chain): overwrite the matching scalar field with the trimmed remainder of
the line, or append a trimmed step line. -/
def applyFieldLine (line : List Char) (tc : TestCase) : TestCase :=
  if objectiveMarker.isPrefixOf (pyStrip line) then
    { tc with objective := pyStrip (afterLast objectiveMarker line) }
  else if preconditionsMarker.isPrefixOf (pyStrip line) then
    { tc with preconditions := pyStrip (afterLast preconditionsMarker line) }
  else if expectedResultsMarker.isPrefixOf (pyStrip line) then
    { tc with expected_results := pyStrip (afterLast expectedResultsMarker line) }
  else if priorityMarker.isPrefixOf (pyStrip line) then
    { tc with priority := pyStrip (afterLast priorityMarker line) }
  else if statusMarker.isPrefixOf (pyStrip line) then
    { tc with status := pyStrip (afterLast statusMarker line) }
  else if startsWithChar '-' (pyStrip line) || startsWithNumDot (pyStrip line) then
    { tc with steps := tc.steps ++ [pyStrip line] }
  else tc

/-- The heading block of the loop body: when the regex matches and the whole
turn contains "Objective:", close the current case (append it) and open a
new one. -/
def openCaseLine (hasObj : Bool) (st : ParseState) (line : List Char) : ParseState :=
  match findTestCaseDigits line with
  | some ds =>
    if hasObj then
      { cases := st.cases ++ st.current.toList, current := some (newTestCase ds line) }
    else st
  | none => st

/-- The field block applied to the state (no-op when no case is open). -/
def fieldLine (st : ParseState) (line : List Char) : ParseState :=
  match st.current with
  | some tc => { st with current := some (applyFieldLine line tc) }
  | none => st

/-- One iteration of the inner loop of `_emergency_test_plan_processing`:
the heading block runs first, then the field block sees the same line (the
two blocks are sequential ifs in the source, not an if/else). -/
def processLine (hasObj : Bool) (st : ParseState) (line : List Char) : ParseState :=
  fieldLine (openCaseLine hasObj st line) line

/-- One iteration of the outer loop: split the message content into lines
and process each; `hasObj` is the per-message check `"Objective:" in content`. -/
def processMessage (st : ParseState) (m : ChatMessage) : ParseState :=
  (splitLines m.content).foldl (processLine (containsSub m.content objectiveMarker)) st

/-- Model of `TestPlanGenerator._emergency_test_plan_processing`: fold the loop over
all messages in chronological order, then append the still-open case; all
plan-level metadata keeps the placeholder default. -/
def emergencyTestPlanProcessing (messages : List ChatMessage) : TestPlan :=
  let st := messages.foldl processMessage (ParseState.mk [] none)
  { objective := tbd
    scope := tbd
    testing_strategy := tbd
    test_environment := tbd
    schedule := tbd
    test_cases := st.cases ++ st.current.toList
    risk_assessment := tbd }

/-- Model of `TestPlanGenerator.generate_test_plan`: inside `try`, the chat is run
and the extractor result is saved and returned; the `except` arm runs the
fallback parser instead.  The Boolean abstracts whether any step of the
`try` body (chat initiation or file writing) raised; the extractor itself
is total and never raises. -/
def generateTestPlan (messages : List ChatMessage) (raisedInTry : Bool) : TestPlanRecord :=
  if raisedInTry then TestPlanRecord.structured (emergencyTestPlanProcessing messages)
  else extractTestPlanContent messages

/-- Single-quote character (Python repr quote). -/
def squote : Char := Char.ofNat 39

/-- Double-quote character. -/
def dquote : Char := Char.ofNat 34

/-- Backslash character. -/
def backslashChar : Char := Char.ofNat 92

/-- CPython `repr` escaping of one character inside a string literal with
quote `q` (modelled for the printable characters plus backslash, newline,
carriage return and tab, which covers every character the code can emit). -/
def pyReprEscape (q c : Char) : List Char :=
  if c == backslashChar then [backslashChar, backslashChar]
  else if c == '\n' then [backslashChar, 'n']
  else if c == '\r' then [backslashChar, 'r']
  else if c == '\t' then [backslashChar, 't']
  else if c == q then [backslashChar, q]
  else [c]

/-- CPython `repr` of a string: single quotes, switching to double quotes
when the string contains a single quote but no double quote. -/
def pyReprStr (s : List Char) : List Char :=
  let q := if s.contains squote && !(s.contains dquote) then dquote else squote
  (q :: (s.map (pyReprEscape q)).flatten) ++ [q]

/-- The ", " separator of Python container reprs. -/
def commaSep : List Char := ", ".toList

/-- One `repr(key): value` entry of a dict repr. -/
def pyKV (k v : List Char) : List Char := pyReprStr k ++ (": ".toList) ++ v

/-- Opening brace as a one-character string. -/
def lbraceStr : List Char := [Char.ofNat 123]

/-- Closing brace as a one-character string. -/
def rbraceStr : List Char := [Char.ofNat 125]

/-- Python dict repr from already-rendered entries (insertion order). -/
def pyDict (kvs : List (List Char)) : List Char :=
  lbraceStr ++ List.intercalate commaSep kvs ++ rbraceStr

/-- Python list repr from already-rendered elements. -/
def pyListRepr (vs : List (List Char)) : List Char :=
  ("[".toList) ++ List.intercalate commaSep vs ++ ("]".toList)

/-- Python `str` of one test case dictionary (key order as constructed by the
source). -/
def pyReprTestCase (tc : TestCase) : List Char :=
  pyDict [ pyKV ("test_case_number".toList) (Nat.toDigits 10 tc.test_case_number)
         , pyKV ("title".toList) (pyReprStr tc.title)
         , pyKV ("objective".toList) (pyReprStr tc.objective)
         , pyKV ("preconditions".toList) (pyReprStr tc.preconditions)
         , pyKV ("steps".toList) (pyListRepr (tc.steps.map pyReprStr))
         , pyKV ("expected_results".toList) (pyReprStr tc.expected_results)
         , pyKV ("priority".toList) (pyReprStr tc.priority)
         , pyKV ("status".toList) (pyReprStr tc.status) ]

/-- Python `str` of the structured test plan dictionary. -/
def pyReprPlan (p : TestPlan) : List Char :=
  pyDict [ pyKV ("objective".toList) (pyReprStr p.objective)
         , pyKV ("scope".toList) (pyReprStr p.scope)
         , pyKV ("testing_strategy".toList) (pyReprStr p.testing_strategy)
         , pyKV ("test_environment".toList) (pyReprStr p.test_environment)
         , pyKV ("schedule".toList) (pyReprStr p.schedule)
         , pyKV ("test_cases".toList) (pyListRepr (p.test_cases.map pyReprTestCase))
         , pyKV ("risk_assessment".toList) (pyReprStr p.risk_assessment) ]

/-- The structured-form branch of `_save_test_plan_to_file`: the file gets
"TEST PLAN:\n", then `str(test_plan)`, then "\nEND OF TEST PLAN". -/
def savedStructuredText (p : TestPlan) : List Char :=
  ("TEST PLAN:\n".toList) ++ pyReprPlan p ++ ("\nEND OF TEST PLAN".toList)

/-- Model of `TestPlanGenerator._save_test_plan_to_file`: a raw record (a dict with
the "test_plan" key) is written verbatim; a structured record is written
via `savedStructuredText`. -/
def savedFileText : TestPlanRecord → List Char
  | TestPlanRecord.raw t => t
  | TestPlanRecord.structured p => savedStructuredText p

/-- The numbers on accepted heading lines of one message, in line order
(empty when the message does not contain "Objective:"). -/
def msgHeadingNums (m : ChatMessage) : List Nat :=
  if containsSub m.content objectiveMarker then
    (splitLines m.content).filterMap (fun l => (findTestCaseDigits l).map digitsToNat)
  else []

/-- The heading numbers of a whole transcript in order of appearance. -/
def headingNumbers : List ChatMessage → List Nat
  | [] => []
  | m :: rest => msgHeadingNums m ++ headingNumbers rest

/-- The identifiers held by a parse state, closed cases first, then the
open case. -/
def caseNums (st : ParseState) : List Nat :=
  (st.cases ++ st.current.toList).map (fun tc => tc.test_case_number)

/-- The three priorities named by the data model. -/
def allowedPriorities : List (List Char) :=
  [("Low".toList), ("Medium".toList), ("High".toList)]

/-- The three statuses named by the data model. -/
def allowedStatuses : List (List Char) :=
  [("Draft".toList), ("Ready for Execution".toList), ("Completed".toList)]

/-- A test case whose priority and status are in the allowed sets. -/
def caseAllowed (tc : TestCase) : Bool :=
  decide (tc.priority ∈ allowedPriorities) && decide (tc.status ∈ allowedStatuses)

/-- A line whose "Priority:" or "Status:" payload, if it has one, is an
allowed value. -/
abbrev lineValueAllowed (line : List Char) : Prop :=
  (priorityMarker.isPrefixOf (pyStrip line) = true →
    pyStrip (afterLast priorityMarker line) ∈ allowedPriorities) ∧
  (statusMarker.isPrefixOf (pyStrip line) = true →
    pyStrip (afterLast statusMarker line) ∈ allowedStatuses)

/-- A parse state all of whose cases (closed or open) have allowed priority
and status. -/
def stateAllowed (st : ParseState) : Prop :=
  (∀ tc ∈ st.cases, tc.priority ∈ allowedPriorities ∧ tc.status ∈ allowedStatuses) ∧
  (∀ tc ∈ st.current.toList, tc.priority ∈ allowedPriorities ∧ tc.status ∈ allowedStatuses)

/-- The eight-line well-formed block of the C5 scenario, as one turn. -/
def exC5 : List Char := "Test Case 3: Login works\nObjective: verify login\nPreconditions: user exists\n- step one\n- step two\nExpected Results: dashboard shown\nPriority: High\nStatus: Draft".toList

/-- The test case the fallback parser extracts from `exC5`. -/
def expectedCase5 : TestCase :=
  TestCase.mk 3 ("Login works".toList) ("verify login".toList) ("user exists".toList)
    [("- step one".toList), ("- step two".toList)] ("dashboard shown".toList)
    ("High".toList) ("Draft".toList)

/-- The structured record the fallback parser produces from `exC5`. -/
def plan5 : TestPlan := emergencyTestPlanProcessing [ChatMessage.mk exC5]

/-- A turn in which the end marker precedes the start marker. -/
def exRev : List Char := "END OF TEST PLAN and later TEST PLAN: tail".toList

/-- A turn with a well-formed delimited block for the C3 witness. -/
def exC3 : List Char := "xx TEST PLAN: alpha END OF TEST PLAN yy".toList

/-- The earlier block-bearing turn of the C4 witness. -/
def exC4a : List Char := "TEST PLAN: draft one END OF TEST PLAN".toList

/-- The later block-bearing turn of the C4 witness. -/
def exC4b : List Char := "TEST PLAN: final two END OF TEST PLAN".toList

/-- A heading line whose title itself contains a colon. -/
def exC6 : List Char := "Test Case 1: Login: admin\nObjective: o".toList

/-- A transcript whose heading numbers decrease. -/
def exC7 : List Char := "Test Case 5: a\nObjective: o\nTest Case 2: b".toList

/-- A transcript with a priority outside the documented set. -/
def exC8 : List Char := "Test Case 1: t\nObjective: o\nPriority: Urgent".toList

/-- The field block never changes the title of the current case. -/
theorem applyFieldLine_title (line : List Char) (tc : TestCase) :
    (applyFieldLine line tc).title = tc.title := by
  unfold applyFieldLine
  repeat' split
  all_goals rfl

/-- The field block never changes the identifier of the current case. -/
theorem applyFieldLine_num (line : List Char) (tc : TestCase) :
    (applyFieldLine line tc).test_case_number = tc.test_case_number := by
  unfold applyFieldLine
  repeat' split
  all_goals rfl

/-- Claim C10: the fallback parser leaves all six plan-level metadata
fields at the placeholder "To be determined" for every transcript; only
test cases are extracted. -/
theorem fallback_metadata_always_placeholder (msgs : List ChatMessage) :
    (emergencyTestPlanProcessing msgs).objective = tbd ∧
    (emergencyTestPlanProcessing msgs).scope = tbd ∧
    (emergencyTestPlanProcessing msgs).testing_strategy = tbd ∧
    (emergencyTestPlanProcessing msgs).test_environment = tbd ∧
    (emergencyTestPlanProcessing msgs).schedule = tbd ∧
    (emergencyTestPlanProcessing msgs).risk_assessment = tbd :=
  ⟨rfl, rfl, rfl, rfl, rfl, rfl⟩

/-- Claim C5: on the eight-line well-formed block, the fallback parser
returns exactly one test case with identifier 3, title "Login works", the
two step lines in order, and the scalar fields verbatim; the plan metadata
stays at the placeholder. -/
theorem fallback_parses_example_block :
    emergencyTestPlanProcessing [ChatMessage.mk exC5] =
      TestPlan.mk tbd tbd tbd tbd tbd [expectedCase5] tbd := by
  decide

/-- Unfolding equation of the reverse scan at a cons cell. -/
theorem extractLoop_cons (m : ChatMessage) (rest : List ChatMessage) :
    extractLoop (m :: rest) =
      if containsSub m.content startMarker then
        match findSub startMarker m.content, findSub endMarker m.content with
        | some s, some e => TestPlanRecord.raw (pyStrip (pySlice m.content s e))
        | _, _ => extractLoop rest
      else extractLoop rest := rfl

/-- Messages that do not contain both markers are skipped by the reverse
scan of the extractor. -/
theorem extractLoop_skip (l rest : List ChatMessage)
    (h : ∀ m ∈ l, containsSub m.content startMarker = false ∨
        containsSub m.content endMarker = false) :
    extractLoop (l ++ rest) = extractLoop rest := by
  induction l with
  | nil => rfl
  | cons m t ih =>
    have hm := h m (List.mem_cons_self m t)
    have ht : ∀ x ∈ t, containsSub x.content startMarker = false ∨
        containsSub x.content endMarker = false :=
      fun x hx => h x (List.mem_cons_of_mem m hx)
    rw [List.cons_append, extractLoop_cons]
    rcases hm with hm | hm
    · rw [hm]
      simp only [Bool.false_eq_true, if_false]
      exact ih ht
    · have hend : findSub endMarker m.content = none := by
        unfold containsSub at hm
        exact Option.not_isSome_iff_eq_none.mp (by simp [hm])
      cases hstart : findSub startMarker m.content with
      | none =>
        have hcf : containsSub m.content startMarker = false := by
          unfold containsSub
          rw [hstart]
          rfl
        rw [hcf]
        simp only [Bool.false_eq_true, if_false]
        exact ih ht
      | some s =>
        have hct : containsSub m.content startMarker = true := by
          unfold containsSub
          rw [hstart]
          rfl
        rw [hct, hend]
        simpa using ih ht

/-- An empty slice results when the end index is at or before the start. -/
theorem pySlice_of_le (l : List Char) (a b : Nat) (h : b ≤ a) :
    pySlice l a b = [] := by
  unfold pySlice
  rw [Nat.sub_eq_zero_of_le h]
  exact List.take_zero (l.drop a)

/-- Claim C2 (amended): when either marker is absent from every turn the
extractor returns the soft-miss sentinel (and, being total, never raises);
but when a turn holds both markers with the end marker at or before the
start marker, the extractor returns a raw record with empty text, not the
sentinel. -/
theorem extract_miss_sentinel_and_reversed_empty :
    (∀ msgs : List ChatMessage,
      (∀ m ∈ msgs, containsSub m.content startMarker = false ∨
          containsSub m.content endMarker = false) →
      extractTestPlanContent msgs = TestPlanRecord.raw noPlanMsg) ∧
    (∀ (m : ChatMessage) (s e : Nat),
      findSub startMarker m.content = some s →
      findSub endMarker m.content = some e → e ≤ s →
      extractTestPlanContent [m] = TestPlanRecord.raw []) := by
  constructor
  · intro msgs h
    unfold extractTestPlanContent
    have h2 : ∀ m ∈ msgs.reverse, containsSub m.content startMarker = false ∨
        containsSub m.content endMarker = false :=
      fun m hm => h m (List.mem_reverse.mp hm)
    have hskip := extractLoop_skip msgs.reverse [] (by simpa using h2)
    simpa using hskip
  · intro m s e hs he hle
    unfold extractTestPlanContent
    have hrev : ([m] : List ChatMessage).reverse = [m] := rfl
    rw [hrev, extractLoop_cons]
    have hct : containsSub m.content startMarker = true := by
      unfold containsSub
      rw [hs]
      rfl
    rw [hct, hs, he]
    simp [pySlice_of_le m.content s e hle, pyStrip]

/-- Witness for C2: a transcript with no markers yields the sentinel; the
reversed-marker turn `exRev` yields the empty raw record. -/
theorem extract_miss_sentinel_and_reversed_empty_witness :
    extractTestPlanContent [ChatMessage.mk ("no markers here".toList)] =
      TestPlanRecord.raw noPlanMsg ∧
    extractTestPlanContent [ChatMessage.mk exRev] = TestPlanRecord.raw [] :=
  ⟨extract_miss_sentinel_and_reversed_empty.1 _ (by decide),
   extract_miss_sentinel_and_reversed_empty.2 (ChatMessage.mk exRev) 27 0
     (by decide) (by decide) (by decide)⟩

/-- Counterexample to C2 as stated: on the turn whose end marker precedes
its start marker the extractor returns an empty raw record, not the
soft-miss sentinel. -/
theorem extract_reversed_markers_counterexample :
    extractTestPlanContent [ChatMessage.mk exRev] = TestPlanRecord.raw [] ∧
    TestPlanRecord.raw [] ≠ TestPlanRecord.raw noPlanMsg := by
  decide

/-- Claim C3: when the last turn contains the start marker at its first
occurrence `s` and the end marker at its first occurrence `e`, with the
start before the end, the extractor returns exactly the slice from `s`
(inclusive) to `e` (exclusive) of that turn, whitespace-trimmed. -/
theorem extract_returns_trimmed_block (ms : List ChatMessage) (m : ChatMessage)
    (s e : Nat)
    (hs : findSub startMarker m.content = some s)
    (he : findSub endMarker m.content = some e)
    (hlt : s < e) :
    extractTestPlanContent (ms ++ [m]) =
      TestPlanRecord.raw (pyStrip (pySlice m.content s e)) := by
  unfold extractTestPlanContent
  rw [List.reverse_append]
  have hrev : ([m] : List ChatMessage).reverse = [m] := rfl
  rw [hrev, List.singleton_append, extractLoop_cons]
  have hct : containsSub m.content startMarker = true := by
    unfold containsSub
    rw [hs]
    rfl
  rw [hct, hs, he]
  simp

/-- Witness for C3 on a concrete delimited turn. -/
theorem extract_returns_trimmed_block_witness :
    extractTestPlanContent [ChatMessage.mk exC3] =
      TestPlanRecord.raw (("TEST PLAN: alpha".toList)) :=
  extract_returns_trimmed_block [] (ChatMessage.mk exC3) 3 20
    (by decide) (by decide) (by decide)

/-- Claim C4: with two block-bearing turns `a` before `b` (and no complete
block after `b`), the extractor returns the block of the chronologically
later turn `b`, and, the contents differing, not the block of `a`. -/
theorem extract_prefers_later_turn (xs ys zs : List ChatMessage)
    (a b : ChatMessage) (sa ea sb eb : Nat)
    (ha1 : findSub startMarker a.content = some sa)
    (ha2 : findSub endMarker a.content = some ea)
    (ha3 : sa < ea)
    (hb1 : findSub startMarker b.content = some sb)
    (hb2 : findSub endMarker b.content = some eb)
    (hb3 : sb < eb)
    (hdiff : pyStrip (pySlice a.content sa ea) ≠ pyStrip (pySlice b.content sb eb))
    (hzs : ∀ m ∈ zs, containsSub m.content startMarker = false ∨
        containsSub m.content endMarker = false) :
    extractTestPlanContent (xs ++ a :: ys ++ b :: zs) =
      TestPlanRecord.raw (pyStrip (pySlice b.content sb eb)) ∧
    extractTestPlanContent (xs ++ a :: ys ++ b :: zs) ≠
      TestPlanRecord.raw (pyStrip (pySlice a.content sa ea)) := by
  have hmain : extractTestPlanContent (xs ++ a :: ys ++ b :: zs) =
      TestPlanRecord.raw (pyStrip (pySlice b.content sb eb)) := by
    unfold extractTestPlanContent
    have hsplit : (xs ++ a :: ys ++ b :: zs).reverse =
        zs.reverse ++ b :: (ys.reverse ++ a :: xs.reverse) := by
      simp
    rw [hsplit,
      extractLoop_skip zs.reverse _ (fun m hm => hzs m (List.mem_reverse.mp hm)),
      extractLoop_cons]
    have hct : containsSub b.content startMarker = true := by
      unfold containsSub
      rw [hb1]
      rfl
    rw [hct, hb1, hb2]
    simp
  refine ⟨hmain, ?_⟩
  rw [hmain]
  intro hcontra
  injection hcontra with hinj
  exact hdiff hinj.symm

/-- Witness for C4 on two concrete block-bearing turns. -/
theorem extract_prefers_later_turn_witness :
    extractTestPlanContent [ChatMessage.mk exC4a, ChatMessage.mk exC4b] =
      TestPlanRecord.raw (("TEST PLAN: final two".toList)) :=
  (extract_prefers_later_turn [] [] [] (ChatMessage.mk exC4a) (ChatMessage.mk exC4b)
    0 21 0 21 (by decide) (by decide) (by decide) (by decide) (by decide) (by decide)
    (by decide) (by decide)).1

/-- Claim C1 (amended): when the extractor reports its soft miss and the
try-block did not raise, the pipeline returns the soft-miss sentinel record
itself, without invoking the fallback parser; the fallback runs exactly
when the try-block raised, so in either case some record is produced. -/
theorem generate_soft_miss_returns_sentinel (msgs : List ChatMessage)
    (h : extractTestPlanContent msgs = TestPlanRecord.raw noPlanMsg) :
    generateTestPlan msgs false = TestPlanRecord.raw noPlanMsg ∧
    generateTestPlan msgs true =
      TestPlanRecord.structured (emergencyTestPlanProcessing msgs) :=
  ⟨h, rfl⟩

/-- Witness for C1 on the empty transcript, a soft miss. -/
theorem generate_soft_miss_returns_sentinel_witness :
    generateTestPlan [] false = TestPlanRecord.raw noPlanMsg ∧
    generateTestPlan [] true =
      TestPlanRecord.structured (emergencyTestPlanProcessing []) :=
  generate_soft_miss_returns_sentinel [] (by decide)

/-- Counterexample to C1 as stated: on the empty transcript the extractor
reports the soft miss, yet the non-raising pipeline returns the sentinel
record and not the fallback parser result. -/
theorem generate_soft_miss_no_fallback_counterexample :
    extractTestPlanContent [] = TestPlanRecord.raw noPlanMsg ∧
    generateTestPlan [] false = TestPlanRecord.raw noPlanMsg ∧
    generateTestPlan [] false ≠
      TestPlanRecord.structured (emergencyTestPlanProcessing []) := by
  decide

/-- Claim C6 (amended): a heading line opens a case whose title is the text
after the last colon of the line, trimmed, when the line contains any
colon; with no colon the title is the synthesized "Test Case " followed by
the matched digits. -/
theorem fallback_title_rule (st : ParseState) (line ds : List Char)
    (h : findTestCaseDigits line = some ds) :
    (processLine true st line).current.map (fun tc => tc.title) =
      some (if line.contains ':' then pyStrip (afterLast colonSep line)
            else testCaseLit ++ ds) := by
  unfold processLine openCaseLine
  rw [h]
  simp only [if_true]
  unfold fieldLine
  simp [applyFieldLine_title, newTestCase]

/-- Witness for C6: the heading line with a colon inside the title part
gets the text after the last colon. -/
theorem fallback_title_rule_witness :
    (processLine true (ParseState.mk [] none)
        (("Test Case 1: Login: admin".toList))).current.map (fun tc => tc.title) =
      some (("admin".toList)) :=
  fallback_title_rule (ParseState.mk [] none) (("Test Case 1: Login: admin".toList))
    (("1".toList)) (by decide)

/-- Counterexample to C6 as stated: for the heading "Test Case 1: Login:
admin" the produced title is "admin" (last colon), not "Login: admin"
(first colon after the match). -/
theorem fallback_title_first_colon_counterexample :
    (emergencyTestPlanProcessing [ChatMessage.mk exC6]).test_cases.map
        (fun tc => tc.title) = [("admin".toList)] ∧
    ¬ ((emergencyTestPlanProcessing [ChatMessage.mk exC6]).test_cases.map
        (fun tc => tc.title) = [("Login: admin".toList)]) := by
  decide

/-- The field block leaves the identifier sequence of the state unchanged. -/
theorem fieldLine_caseNums (st : ParseState) (line : List Char) :
    caseNums (fieldLine st line) = caseNums st := by
  unfold fieldLine
  cases hc : st.current with
  | none => rfl
  | some tc =>
    unfold caseNums
    simp [hc, applyFieldLine_num]

/-- The heading block appends exactly the matched heading number (when the
turn has "Objective:" and the regex matches). -/
theorem openCaseLine_caseNums (hasObj : Bool) (st : ParseState) (line : List Char) :
    caseNums (openCaseLine hasObj st line) =
      caseNums st ++
        (if hasObj then ((findTestCaseDigits line).map digitsToNat).toList else []) := by
  unfold openCaseLine
  cases hfd : findTestCaseDigits line with
  | none => cases hasObj <;> simp
  | some ds =>
    cases hasObj with
    | false => simp
    | true =>
      unfold caseNums
      simp [newTestCase]

/-- One loop iteration appends exactly the heading number of the line, if
any. -/
theorem processLine_caseNums (hasObj : Bool) (st : ParseState) (line : List Char) :
    caseNums (processLine hasObj st line) =
      caseNums st ++
        (if hasObj then ((findTestCaseDigits line).map digitsToNat).toList else []) := by
  unfold processLine
  rw [fieldLine_caseNums, openCaseLine_caseNums]

/-- Folding the loop over the lines of one turn appends the turn's heading
numbers in line order. -/
theorem foldl_processLine_caseNums (hasObj : Bool) (lines : List (List Char))
    (st : ParseState) :
    caseNums (lines.foldl (processLine hasObj) st) =
      caseNums st ++
        (if hasObj then
          lines.filterMap (fun l => (findTestCaseDigits l).map digitsToNat)
        else []) := by
  induction lines generalizing st with
  | nil => cases hasObj <;> simp
  | cons l ls ih =>
    rw [List.foldl_cons, ih, processLine_caseNums]
    cases hasObj with
    | false => simp
    | true =>
      rw [List.filterMap_cons]
      cases hfd : findTestCaseDigits l <;> simp [List.append_assoc]

/-- Processing one whole message appends its heading numbers. -/
theorem processMessage_caseNums (st : ParseState) (m : ChatMessage) :
    caseNums (processMessage st m) = caseNums st ++ msgHeadingNums m := by
  unfold processMessage msgHeadingNums
  rw [foldl_processLine_caseNums]

/-- Folding over all messages appends the transcript's heading numbers in
order of appearance. -/
theorem foldl_processMessage_caseNums (msgs : List ChatMessage) (st : ParseState) :
    caseNums (msgs.foldl processMessage st) = caseNums st ++ headingNumbers msgs := by
  induction msgs generalizing st with
  | nil => simp [headingNumbers]
  | cons m ms ih =>
    rw [List.foldl_cons, ih, processMessage_caseNums]
    simp only [headingNumbers]
    rw [List.append_assoc]

/-- Claim C7 (amended): the identifiers of the fallback parser's record
are, in order, exactly the numbers of the accepted heading lines in order
of appearance in the transcript; they are taken verbatim from the text, so
they are monotonic precisely when the transcript's heading numbering is. -/
theorem fallback_ids_follow_heading_order (msgs : List ChatMessage) :
    (emergencyTestPlanProcessing msgs).test_cases.map
        (fun tc => tc.test_case_number) = headingNumbers msgs := by
  have h := foldl_processMessage_caseNums msgs (ParseState.mk [] none)
  unfold caseNums at h
  simpa [emergencyTestPlanProcessing] using h

/-- Counterexample to C7 as stated: a transcript whose headings are
numbered 5 then 2 yields identifiers [5, 2]; the earlier case has the
larger identifier. -/
theorem fallback_ids_not_monotonic_counterexample :
    (emergencyTestPlanProcessing [ChatMessage.mk exC7]).test_cases.map
        (fun tc => tc.test_case_number) = [5, 2] ∧
    ¬ List.Pairwise (fun x y => x ≤ y)
        ((emergencyTestPlanProcessing [ChatMessage.mk exC7]).test_cases.map
          (fun tc => tc.test_case_number)) := by
  decide

/-- The default priority "Medium" is an allowed priority. -/
theorem mediumS_allowed : mediumS ∈ allowedPriorities := by decide

/-- The default status "Draft" is an allowed status. -/
theorem draftS_allowed : draftS ∈ allowedStatuses := by decide

/-- The field block keeps priority and status in the allowed sets as long
as the line's own "Priority:"/"Status:" payload (if present) is allowed. -/
theorem applyFieldLine_allowed (line : List Char) (tc : TestCase)
    (h : lineValueAllowed line)
    (hp : tc.priority ∈ allowedPriorities) (hs : tc.status ∈ allowedStatuses) :
    (applyFieldLine line tc).priority ∈ allowedPriorities ∧
    (applyFieldLine line tc).status ∈ allowedStatuses := by
  obtain ⟨h1, h2⟩ := h
  unfold applyFieldLine
  split
  · exact ⟨hp, hs⟩
  · split
    · exact ⟨hp, hs⟩
    · split
      · exact ⟨hp, hs⟩
      · split
        · rename_i hcond
          exact ⟨h1 hcond, hs⟩
        · split
          · rename_i hcond
            exact ⟨hp, h2 hcond⟩
          · split
            · exact ⟨hp, hs⟩
            · exact ⟨hp, hs⟩

/-- The heading block preserves the allowed-values invariant (fresh cases
start at the allowed defaults Medium and Draft). -/
theorem openCaseLine_allowed (hasObj : Bool) (st : ParseState) (line : List Char)
    (h : stateAllowed st) : stateAllowed (openCaseLine hasObj st line) := by
  obtain ⟨hc, hcur⟩ := h
  unfold openCaseLine
  cases hfd : findTestCaseDigits line with
  | none => exact ⟨hc, hcur⟩
  | some ds =>
    cases hasObj with
    | false => exact ⟨hc, hcur⟩
    | true =>
      constructor
      · intro tc htc
        rcases List.mem_append.mp htc with hx | hx
        · exact hc tc hx
        · exact hcur tc hx
      · intro tc htc
        have heq : tc = newTestCase ds line := List.mem_singleton.mp htc
        subst heq
        exact ⟨mediumS_allowed, draftS_allowed⟩

/-- The field block preserves the allowed-values invariant for allowed
lines. -/
theorem fieldLine_allowed (st : ParseState) (line : List Char)
    (hl : lineValueAllowed line) (h : stateAllowed st) :
    stateAllowed (fieldLine st line) := by
  obtain ⟨hc, hcur⟩ := h
  unfold fieldLine
  cases hco : st.current with
  | none => exact ⟨hc, hcur⟩
  | some tc =>
    constructor
    · exact hc
    · intro x hx
      have hx2 : x = applyFieldLine line tc := List.mem_singleton.mp hx
      subst hx2
      have htc : tc.priority ∈ allowedPriorities ∧ tc.status ∈ allowedStatuses := by
        apply hcur
        simp [hco]
      exact applyFieldLine_allowed line tc hl htc.1 htc.2

/-- One loop iteration preserves the allowed-values invariant. -/
theorem processLine_allowed (hasObj : Bool) (st : ParseState) (line : List Char)
    (hl : lineValueAllowed line) (h : stateAllowed st) :
    stateAllowed (processLine hasObj st line) :=
  fieldLine_allowed _ line hl (openCaseLine_allowed hasObj st line h)

/-- Folding over the lines of one turn preserves the invariant when every
line is allowed. -/
theorem foldl_processLine_allowed (hasObj : Bool) (lines : List (List Char))
    (st : ParseState) (hl : ∀ line ∈ lines, lineValueAllowed line)
    (h : stateAllowed st) :
    stateAllowed (lines.foldl (processLine hasObj) st) := by
  induction lines generalizing st with
  | nil => exact h
  | cons l ls ih =>
    rw [List.foldl_cons]
    exact ih _ (fun x hx => hl x (List.mem_cons_of_mem l hx))
      (processLine_allowed hasObj st l (hl l (List.mem_cons_self l ls)) h)

/-- Folding over all messages preserves the invariant when every line of
every message is allowed. -/
theorem foldl_processMessage_allowed : ∀ (msgs : List ChatMessage) (st : ParseState),
    (∀ m ∈ msgs, ∀ line ∈ splitLines m.content, lineValueAllowed line) →
    stateAllowed st → stateAllowed (msgs.foldl processMessage st)
  | [], _, _, hst => hst
  | m :: ms, st, h, hst => by
    rw [List.foldl_cons]
    refine foldl_processMessage_allowed ms _ (fun x hx => h x (List.mem_cons_of_mem m hx)) ?_
    unfold processMessage
    exact foldl_processLine_allowed _ _ st (h m (List.mem_cons_self m ms)) hst

/-- Claim C8 (amended): every case starts at the defaults Medium/Draft, and
whenever every "Priority:"/"Status:" field line of the transcript carries
one of the documented values, every produced test case has priority in
{Low, Medium, High} and status in {Draft, Ready for Execution, Completed};
an arbitrary payload on such a line is copied verbatim, so the unconditional
claim fails. -/
theorem fallback_priority_status_allowed (msgs : List ChatMessage)
    (h : ∀ m ∈ msgs, ∀ line ∈ splitLines m.content, lineValueAllowed line) :
    (emergencyTestPlanProcessing msgs).test_cases.all caseAllowed = true := by
  have hst := foldl_processMessage_allowed msgs (ParseState.mk [] none) h
    ⟨by simp, by simp⟩
  obtain ⟨hc, hcur⟩ := hst
  rw [List.all_eq_true]
  intro tc htc
  have htc2 : tc ∈ (msgs.foldl processMessage (ParseState.mk [] none)).cases ++
      (msgs.foldl processMessage (ParseState.mk [] none)).current.toList := htc
  have hmem : tc.priority ∈ allowedPriorities ∧ tc.status ∈ allowedStatuses := by
    rcases List.mem_append.mp htc2 with hx | hx
    · exact hc tc hx
    · exact hcur tc hx
  simp only [caseAllowed, Bool.and_eq_true, decide_eq_true_eq]
  exact hmem

/-- Witness for C8: the well-formed block `exC5` uses only allowed values,
and every extracted case is within the allowed sets. -/
theorem fallback_priority_status_allowed_witness :
    (emergencyTestPlanProcessing [ChatMessage.mk exC5]).test_cases.all
      caseAllowed = true :=
  fallback_priority_status_allowed [ChatMessage.mk exC5] (by decide)

/-- Counterexample to C8 as stated: a "Priority: Urgent" line is copied
verbatim into the record, leaving the documented set. -/
theorem fallback_priority_unconstrained_counterexample :
    (emergencyTestPlanProcessing [ChatMessage.mk exC8]).test_cases.map
        (fun tc => tc.priority) = [("Urgent".toList)] ∧
    ¬ (("Urgent".toList) ∈ allowedPriorities) := by
  decide

/-- A line of a turn without "Objective:" leaves the empty initial state
unchanged: no heading is accepted and no case is open. -/
theorem processLine_no_obj (line : List Char) :
    processLine false (ParseState.mk [] none) line = ParseState.mk [] none := by
  unfold processLine openCaseLine fieldLine
  cases hfd : findTestCaseDigits line <;> simp

/-- Folding the loop with `hasObj = false` keeps the empty initial state. -/
theorem foldl_processLine_no_obj (lines : List (List Char)) :
    lines.foldl (processLine false) (ParseState.mk [] none) =
      ParseState.mk [] none := by
  induction lines with
  | nil => rfl
  | cons l ls ih =>
    rw [List.foldl_cons, processLine_no_obj]
    exact ih

/-- A transcript none of whose turns contains "Objective:" keeps the empty
state across all messages. -/
theorem foldl_processMessage_no_obj : ∀ msgs : List ChatMessage,
    (∀ m ∈ msgs, containsSub m.content objectiveMarker = false) →
    msgs.foldl processMessage (ParseState.mk [] none) = ParseState.mk [] none
  | [], _ => rfl
  | m :: ms, h => by
    rw [List.foldl_cons]
    have hm : processMessage (ParseState.mk [] none) m = ParseState.mk [] none := by
      unfold processMessage
      rw [h m (List.mem_cons_self m ms)]
      exact foldl_processLine_no_obj _
    rw [hm]
    exact foldl_processMessage_no_obj ms (fun x hx => h x (List.mem_cons_of_mem m hx))

/-- The fallback parser extracts no cases from a transcript without the
"Objective:" substring. -/
theorem emergency_no_objective_no_cases (msgs : List ChatMessage)
    (h : ∀ m ∈ msgs, containsSub m.content objectiveMarker = false) :
    (emergencyTestPlanProcessing msgs).test_cases = [] := by
  have hst := foldl_processMessage_no_obj msgs h
  show (msgs.foldl processMessage (ParseState.mk [] none)).cases ++
      (msgs.foldl processMessage (ParseState.mk [] none)).current.toList = []
  rw [hst]
  rfl

/-- Claim C9 (amended): the Plan Writer's structured rendering is the
Python `str` of the plan dictionary wrapped in the delimiter markers; when
that rendering does not contain the substring "Objective:" (the usual
situation, since the dict keys are lower-case), feeding it back into the
fallback parser yields a record with an empty test-case sequence, not an
equivalent set of test cases. -/
theorem writer_rendering_reparse_no_cases (p : TestPlan)
    (h : containsSub (savedFileText (TestPlanRecord.structured p))
        objectiveMarker = false) :
    (emergencyTestPlanProcessing
        [ChatMessage.mk (savedFileText (TestPlanRecord.structured p))]).test_cases =
      [] :=
  emergency_no_objective_no_cases _ (by
    intro m hm
    have heq : m = ChatMessage.mk (savedFileText (TestPlanRecord.structured p)) :=
      List.mem_singleton.mp hm
    subst heq
    exact h)

/-- Witness for C9 at the concrete plan extracted from `exC5`. -/
theorem writer_rendering_reparse_no_cases_witness :
    (emergencyTestPlanProcessing
        [ChatMessage.mk (savedFileText (TestPlanRecord.structured plan5))]).test_cases =
      [] :=
  writer_rendering_reparse_no_cases plan5 (by decide)

/-- Counterexample to C9 as stated: re-parsing the writer's rendering of
the plan extracted from `exC5` loses its single test case (identifier 3)
entirely, so no equivalent sequence is reproduced. -/
theorem writer_rendering_not_reparseable_counterexample :
    (emergencyTestPlanProcessing
        [ChatMessage.mk (savedFileText (TestPlanRecord.structured plan5))]).test_cases =
      [] ∧
    plan5.test_cases.map (fun tc => tc.test_case_number) = [3] := by
  decide
